import Mathlib

/-!
Shallow embedding of the job-execution core of the act runner
(pkg/runner/run_context.go, pkg/runner/step_action_remote.go and the
reusable-workflow executors), used to settle the claims about its
specification.

Executors (`common.Executor`, a cancellable fallible deferred action) are
modelled as trace transformers: a function from the list of driver/fetch
events dispatched so far to an optional error message together with the
extended event list.  Pure helper functions (reference parsing, cache-key
sanitization, credential resolution) are translated directly from the Go
source.  External collaborators that the source calls but whose code is
not part of the embedded files (the expression evaluator, the git clone
implementation, the container driver) enter as explicit parameters or
event-emitting primitives.
-/

namespace ActRunner

/-- One observable operation dispatched by the runner: source fetches,
the process-wide fetch lock, container-driver calls, and log output. -/
inductive Event where
  | fetch (url : String) (ref : String) (dir : String)
  | lockAcquire
  | lockRelease
  | readActionManifest
  | infoLog (msg : String)
  | servicePull (id : String)
  | serviceCreate (id : String)
  | serviceStart (id : String)
  | jobImagePull
  | networkCreate (name : String)
  | jobContainerCreate (name : String)
  | jobContainerStart
  | copyContent
deriving DecidableEq, Repr

/-- A `common.Executor`: given the trace of events dispatched so far it
returns an optional error and the extended trace. -/
abbrev Exec := List Event → Option String × List Event

/-- The nil / absent executor: a no-op that never errors. -/
def noopExec : Exec := fun tr => (none, tr)

/-- `common.NewErrorExecutor`: fails immediately with the given message. -/
def errorExec (msg : String) : Exec := fun tr => (some msg, tr)

/-- `common.NewInfoExecutor`: logs a line and succeeds. -/
def infoExec (msg : String) : Exec := fun tr => (none, tr ++ [Event.infoLog msg])

/-- `Executor.Then` / two-stage `common.NewPipelineExecutor`: run the first
executor, stop on its error, otherwise run the second. -/
def seqExec (a b : Exec) : Exec := fun tr =>
  match a tr with
  | (none, tr1) => b tr1
  | (some e, tr1) => (some e, tr1)

/-- `common.NewConditionalExecutor`: the predicate has already been
evaluated to a boolean; `elseE = none` is the nil else-branch no-op. -/
def conditionalExec (cond : Bool) (thenE : Exec) (elseE : Option Exec) : Exec :=
  fun tr =>
    if cond then thenE tr
    else
      match elseE with
      | some e => e tr
      | none => (none, tr)

/-- `Executor.IfBool`: run the executor only when the flag is true. -/
def ifBoolExec (e : Exec) (b : Bool) : Exec :=
  fun tr => if b then e tr else (none, tr)

/-- `common.NewParallelExecutor` with capacity equal to the number of
executors: every executor runs (even after a failure) and the first error
encountered is returned.  The trace records one linearization of the
dispatched events. -/
def parallelAll : List Exec → Exec
  | [] => fun tr => (none, tr)
  | e :: es => fun tr =>
    let p := e tr
    let q := parallelAll es p.2
    (p.1 <|> q.1, q.2)

/-- `newMutexExecutor`: acquire the process-wide `executorLock`, run the
executor, and release the lock afterwards (also on failure, via defer). -/
def newMutexExecutor (e : Exec) : Exec := fun tr =>
  let p := e (tr ++ [Event.lockAcquire])
  (p.1, p.2 ++ [Event.lockRelease])

/-- A primitive container-driver operation: dispatching it records its
event; whether the driver succeeds is given by the surrounding run's
oracle. -/
def primEvent (ev : Event) (oracle : Event → Option String) : Exec :=
  fun tr => (oracle ev, tr ++ [ev])

/-! ### Cache-key sanitization (`safeFilename`, step_action_remote.go) -/

/-- The replacement pairs handed to `strings.NewReplacer` in
`safeFilename`: each of the nine path-hostile characters maps to `-`. -/
def replacerPairs : List (Char × Char) :=
  [('<', '-'), ('>', '-'), (':', '-'), ('"', '-'), ('/', '-'),
   ('\\', '-'), ('|', '-'), ('?', '-'), ('*', '-')]

/-- Apply the first matching replacement pair to a character (the
single-byte replacer tries its patterns in order at each position). -/
def applyReplacer : List (Char × Char) → Char → Char
  | [], c => c
  | (a, b) :: rest, c => if c = a then b else applyReplacer rest c

/-- One left-to-right pass of the replacer over the character sequence. -/
def replacerRun : List Char → List Char
  | [] => []
  | c :: cs => applyReplacer replacerPairs c :: replacerRun cs

/-- `safeFilename` from step_action_remote.go: replace every occurrence
of each path-hostile character in the raw string with a hyphen. -/
def safeFilename (s : String) : String := ⟨replacerRun s.data⟩

/-- The fixed character set named by the spec for cache-key
sanitization. -/
def pathHostileChars : List Char :=
  ['<', '>', ':', '"', '/', '\\', '|', '?', '*']

/-- Cache-key sanitization as the spec words it: replace each occurrence
of each character of the fixed set with a hyphen (used to compare with
the source's `safeFilename`). -/
def sanitizeSpec (s : String) : String :=
  ⟨s.data.map (fun c => if c ∈ pathHostileChars then '-' else c)⟩

/-! ### Remote action references (`parseAction` / `newRemoteAction`) -/

/-- The `remoteAction` structure of step_action_remote.go. -/
structure RemoteAction where
  URL : String
  Org : String
  Repo : String
  Path : String
  Ref : String
deriving DecidableEq, Repr

/-- `remoteAction.IsCheckout`. -/
def RemoteAction.IsCheckout (ra : RemoteAction) : Bool :=
  ra.Org == "actions" && ra.Repo == "checkout"

/-- `parseAction`, the anchored match of
`^([^/@]+)/([^/@]+)(/([^@]*))?(@(.*))?$` followed by the rejection of an
absent or empty ref (`matches[6] == ""`).  Because the first two groups
exclude both `/` and `@` and the optional path group excludes `@`, the
regex is deterministic and is translated as a direct split. -/
def parseAction (action : String) : Option RemoteAction :=
  let cs := action.data
  let org := cs.takeWhile (fun c => c != '/' && c != '@')
  match org, cs.drop org.length with
  | [], _ => none
  | _, '/' :: rest1 =>
    let repo := rest1.takeWhile (fun c => c != '/' && c != '@')
    if repo.isEmpty then none
    else
      match rest1.drop repo.length with
      | [] => none
      | '/' :: rest3 =>
        let path := rest3.takeWhile (fun c => c != '@')
        match rest3.drop path.length with
        | '@' :: refChars =>
          if refChars.isEmpty then none
          else some ⟨"", ⟨org⟩, ⟨repo⟩, ⟨path⟩, ⟨refChars⟩⟩
        | _ => none
      | '@' :: refChars =>
        if refChars.isEmpty then none
        else some ⟨"", ⟨org⟩, ⟨repo⟩, "", ⟨refChars⟩⟩
      | _ => none
  | _, _ => none

/-- The explicit-host arm of `newRemoteAction`: `SplitN(rest, "/", 2)`
must yield two parts, the tail is parsed by `parseAction`, and the URL is
set to the schema plus the host part. -/
def parseActionWithHost (schema : String) (rest : String) : Option RemoteAction :=
  let host := rest.data.takeWhile (fun c => c != '/')
  if host.length == rest.data.length then none
  else
    match parseAction ⟨rest.data.drop (host.length + 1)⟩ with
    | none => none
    | some ra => some { ra with URL := schema ++ ⟨host⟩ }

/-- `newRemoteAction`: strings with an `https://` or `http://` schema are
split into host and action parts; everything else goes straight to
`parseAction`. -/
def newRemoteAction (action : String) : Option RemoteAction :=
  if "https://".data.isPrefixOf action.data then
    parseActionWithHost "https://" ⟨action.data.drop 8⟩
  else if "http://".data.isPrefixOf action.data then
    parseActionWithHost "http://" ⟨action.data.drop 7⟩
  else
    parseAction action

/-! ### Reusable workflow references (`newRemoteReusableWorkflow`) -/

/-- The `remoteReusableWorkflow` structure of the reusable-workflow
executor file. -/
structure RemoteReusableWorkflow where
  GitPlatform : String
  URL : String
  Org : String
  Repo : String
  Filename : String
  Ref : String
deriving DecidableEq, Repr

/-- `remoteReusableWorkflow.CloneURL`. -/
def RemoteReusableWorkflow.CloneURL (r : RemoteReusableWorkflow) : String :=
  r.URL ++ "/" ++ r.Org ++ "/" ++ r.Repo

/-- `remoteReusableWorkflow.FilePath`. -/
def RemoteReusableWorkflow.FilePath (r : RemoteReusableWorkflow) : String :=
  "./." ++ r.GitPlatform ++ "/workflows/" ++ r.Filename

/-- `newRemoteReusableWorkflow`, the anchored match of
`^([^/]+)/([^/]+)/\.([^/]+)/workflows/([^@]+)@(.*)$`.  The first three
groups cannot cross a `/`, so the owner, repository and platform segments
are forced; the filename group excludes `@` and the ref takes the rest. -/
def newRemoteReusableWorkflow (uses : String) : Option RemoteReusableWorkflow :=
  let cs := uses.data
  let org := cs.takeWhile (fun c => c != '/')
  if org.isEmpty then none
  else
    match cs.drop org.length with
    | '/' :: rest1 =>
      let repo := rest1.takeWhile (fun c => c != '/')
      if repo.isEmpty then none
      else
        match rest1.drop repo.length with
        | '/' :: '.' :: rest2 =>
          let platform := rest2.takeWhile (fun c => c != '/')
          if platform.isEmpty then none
          else
            match rest2.drop platform.length with
            | '/' :: rest3 =>
              if rest3.take 10 == "workflows/".data then
                let rest4 := rest3.drop 10
                let filename := rest4.takeWhile (fun c => c != '@')
                if filename.isEmpty then none
                else
                  match rest4.drop filename.length with
                  | '@' :: refChars =>
                    some ⟨⟨platform⟩, "", ⟨org⟩, ⟨repo⟩, ⟨filename⟩, ⟨refChars⟩⟩
                  | _ => none
              else none
            | _ => none
        | _ => none
    | _ => none

/-! ### Credential resolution (run_context.go) -/

/-- Reading a Go `map[string]string`: a missing key yields the empty
string. -/
def mapLookup : List (String × String) → String → String
  | [], _ => ""
  | (k, v) :: rest, key => if k == key then v else mapLookup rest key

/-- `model.ContainerSpec` as used by run_context.go (its declaration
lives in pkg/model; the fields are those read here and declared by the
jobparser's ContainerSpec).  A Go `nil` credentials map is `none`. -/
structure ContainerSpec where
  Image : String
  Env : List (String × String)
  Ports : List String
  Volumes : List String
  Options : String
  Cmd : List String
  Credentials : Option (List (String × String))

/-- `RunContext.handleCredentials`: the DOCKER_USERNAME / DOCKER_PASSWORD
secrets are the fallback; an explicit credentials mapping must have
exactly two entries and both interpolated values must be non-empty.
`interp` stands for the external expression evaluator's `Interpolate`. -/
def handleCredentials (secrets : List (String × String)) (interp : String → String)
    (container : Option ContainerSpec) : Except String (String × String) :=
  let username := mapLookup secrets "DOCKER_USERNAME"
  let password := mapLookup secrets "DOCKER_PASSWORD"
  match container with
  | none => .ok (username, password)
  | some c =>
    match c.Credentials with
    | none => .ok (username, password)
    | some creds =>
      if creds.length != 2 then
        .error "invalid property count for key \x27credentials:\x27"
      else
        let iu := interp (mapLookup creds "username")
        if iu == "" then .error "failed to interpolate container.credentials.username"
        else
          let ip := interp (mapLookup creds "password")
          if ip == "" then .error "failed to interpolate container.credentials.password"
          else if mapLookup creds "username" == "" || mapLookup creds "password" == "" then
            .error "container.credentials cannot be empty"
          else .ok (iu, ip)

/-- `RunContext.handleServiceCredentials`: a nil mapping yields empty
credentials; otherwise exactly two entries and two non-empty interpolated
values are required. -/
def handleServiceCredentials (interp : String → String)
    (creds : Option (List (String × String))) : Except String (String × String) :=
  match creds with
  | none => .ok ("", "")
  | some cs =>
    if cs.length != 2 then
      .error "invalid property count for key \x27credentials:\x27"
    else
      let iu := interp (mapLookup cs "username")
      if iu == "" then .error "failed to interpolate credentials.username"
      else
        let ip := interp (mapLookup cs "password")
        if ip == "" then .error "failed to interpolate credentials.password"
        else .ok (iu, ip)

/-! ### Source fetches -/

/-- Result of one dispatched git clone: success, the distinguished
abbreviated-SHA condition (`git.ErrShortRef`, carrying the full commit
SHA), the distinguished non-fatal divergence condition
(`gogit.ErrForceNeeded`), or any other failure. -/
inductive CloneOutcome where
  | ok
  | shortRef (commit : String) (msg : String)
  | forceNeeded (msg : String)
  | failed (msg : String)
deriving DecidableEq, Repr

/-- Modelled from the spec: the clone implementation
(`git.NewGitCloneExecutor` in pkg/common/git) is not among the embedded
source files.  Per the spec's source-cache fetch policy, a fetch whose
target directory already exists is skipped unconditionally (and trusted,
hence succeeds); otherwise the fetch is dispatched and yields the given
outcome. -/
def gitCloneExecutor (dirExists : Bool) (url ref dir : String)
    (outcome : CloneOutcome) (tr : List Event) : CloneOutcome × List Event :=
  if dirExists then (.ok, tr)
  else (outcome, tr ++ [Event.fetch url ref dir])

/-- The error a clone outcome surfaces when nothing downstream inspects
its kind. -/
def CloneOutcome.toErr : CloneOutcome → Option String
  | .ok => none
  | .shortRef _ m => some m
  | .forceNeeded m => some m
  | .failed m => some m

/-- `cloneIfRequired`: a conditional executor whose predicate is "the
target directory does not exist"; the then-branch is the git clone of the
reusable workflow's clone URL at its ref, the else-branch is nil. -/
def cloneIfRequired (dirExists : Bool) (rw : RemoteReusableWorkflow)
    (targetDirectory : String) (outcome : CloneOutcome) : Exec :=
  conditionalExec (!dirExists)
    (fun tr =>
      let p := gitCloneExecutor dirExists rw.CloneURL rw.Ref targetDirectory outcome tr
      (p.1.toErr, p.2))
    none

/-! ### Reusable workflow executors -/

/-- The pieces of `rc.Config` (and of the filesystem / fetch backend)
that the reusable-workflow executors consult. -/
structure ReusableConfig where
  Repository : String
  Sha : String
  GitHubInstance : String
  ActionCacheDir : String
  dirExists : Bool
  cloneOutcome : CloneOutcome

/-- `strings.TrimPrefix`: drop the prefix when present, otherwise return
the string unchanged. -/
def trimPrefixStr (s p : String) : String :=
  if p.data.isPrefixOf s.data then ⟨s.data.drop p.data.length⟩ else s

def reusableFormatErrorMessage (uses : String) : String :=
  "expected format \x7bowner\x7d/\x7brepo\x7d/.\x7bgit_platform\x7d/workflows/\x7bfilename\x7d@\x7bref\x7d. Actual \x27"
    ++ uses ++ "\x27 Input string was not in a correct format"

/-- `newLocalReusableWorkflowExecutor`: strip a `./` prefix from the
job's `uses`, recombine it with the caller's own repository and SHA into
a remote-style reference, and pipeline the mutex-guarded
clone-if-required with the reusable-workflow run (`reusableExec` stands
for `newReusableWorkflowExecutor`, which plans and runs the child
workflow). -/
def newLocalReusableWorkflowExecutor (jobUses : String) (cfg : ReusableConfig)
    (reusableExec : Exec) : Exec :=
  let trimmedUses := trimPrefixStr jobUses "./"
  let uses := cfg.Repository ++ "/" ++ trimmedUses ++ "@" ++ cfg.Sha
  match newRemoteReusableWorkflow uses with
  | none => errorExec (reusableFormatErrorMessage uses)
  | some rw0 =>
    let rw := { rw0 with URL := cfg.GitHubInstance }
    let workflowDir := cfg.ActionCacheDir ++ "/" ++ safeFilename uses
    seqExec (newMutexExecutor (cloneIfRequired cfg.dirExists rw workflowDir cfg.cloneOutcome))
      reusableExec

/-- `newRemoteReusableWorkflowExecutor`: like the local variant but the
job's `uses` is parsed as-is. -/
def newRemoteReusableWorkflowExecutor (jobUses : String) (cfg : ReusableConfig)
    (reusableExec : Exec) : Exec :=
  match newRemoteReusableWorkflow jobUses with
  | none => errorExec (reusableFormatErrorMessage jobUses)
  | some rw0 =>
    let rw := { rw0 with URL := cfg.GitHubInstance }
    let workflowDir := cfg.ActionCacheDir ++ "/" ++ safeFilename jobUses
    seqExec (newMutexExecutor (cloneIfRequired cfg.dirExists rw workflowDir cfg.cloneOutcome))
      reusableExec

/-! ### Remote action preparation (`stepActionRemote.prepareActionExecutor`) -/

/-- `strings.EqualFold`, restricted to the simple case-fold. -/
def eqFold (a b : String) : Bool :=
  a.data.map Char.toLower == b.data.map Char.toLower

/-- The `ReplaceGheActionWithGithubCom` loop: when `org/repo` matches a
configured entry (case-insensitively), the action is cloned from
github.com instead. -/
def applyGheReplace (replaceList : List String) (ra : RemoteAction) : RemoteAction :=
  if replaceList.any (fun a => eqFold (ra.Org ++ "/" ++ ra.Repo) a) then
    { ra with URL := "github.com" }
  else ra

def malformedActionMessage (uses : String) : String :=
  "Expected format \x7borg\x7d/\x7brepo\x7d[/path]@ref. Actual \x27" ++ uses
    ++ "\x27 Input string was not in a correct format"

def cloneURLErrorMessage (uses err : String) : String :=
  "failed to get available clone url of [" ++ uses ++ "] action, error: " ++ err

def shortRefMessage (uses ref commit : String) : String :=
  "Unable to resolve action \x60" ++ uses ++ "\x60, the provided ref \x60" ++ ref
    ++ "\x60 is the shortened version of a commit SHA, which is not supported. Please use the full commit SHA \x60"
    ++ (commit ++ "\x60 instead")

def nonTerminatingCloneMessage (msg : String) : String :=
  "Non-terminating error while running \x27git clone\x27: " ++ msg

/-- The `sar.readAction` stage: read and parse the fetched action's
manifest (the reader itself lives outside the embedded files; its outcome
is a parameter). -/
def readActionStep (result : Option String) : Exec :=
  fun tr => (result, tr ++ [Event.readActionManifest])

/-- Everything `prepareActionExecutor` consults: the step's `uses`
string, the already-prepared short-circuit, the local-checkout
short-circuit inputs, the configured GHE replacements, the outcome of the
HTTP probe `GetAvailableCloneURL`, the action-cache state and the clone
and manifest-read outcomes. -/
structure PrepareConfig where
  alreadyPrepared : Bool
  uses : String
  localCheckout : Bool
  noSkipCheckout : Bool
  ReplaceGheActionWithGithubCom : List String
  cloneURL : Except String String
  actionCacheDir : String
  dirExists : Bool
  cloneOutcome : CloneOutcome
  readActionResult : Option String

/-- `stepActionRemote.prepareActionExecutor`: parse the `uses` reference
(malformed is fatal, before any fetch), short-circuit a local checkout,
resolve the clone URL, dispatch the clone into the cache directory keyed
by the sanitized raw `uses` string, map the distinguished clone failures,
and read the action manifest. -/
def prepareActionExecutor (cfg : PrepareConfig) : Exec := fun tr =>
  if cfg.alreadyPrepared then (none, tr)
  else
    match newRemoteAction cfg.uses with
    | none => (some (malformedActionMessage cfg.uses), tr)
    | some ra0 =>
      if ra0.IsCheckout && cfg.localCheckout && !cfg.noSkipCheckout then (none, tr)
      else
        let ra := applyGheReplace cfg.ReplaceGheActionWithGithubCom ra0
        match cfg.cloneURL with
        | .error e => (some (cloneURLErrorMessage cfg.uses e), tr)
        | .ok url =>
          let actionDir := cfg.actionCacheDir ++ "/" ++ safeFilename cfg.uses
          let cl := gitCloneExecutor cfg.dirExists url ra.Ref actionDir cfg.cloneOutcome tr
          match cl.1 with
          | .shortRef commit _ => (some (shortRefMessage cfg.uses ra.Ref commit), cl.2)
          | .forceNeeded m =>
            seqExec (infoExec (nonTerminatingCloneMessage m))
              (readActionStep cfg.readActionResult) cl.2
          | .failed m => (some m, cl.2)
          | .ok => readActionStep cfg.readActionResult cl.2

/-! ### Job enablement and the top-level Executor (run_context.go) -/

/-- The job-kind discriminator (`model.JobType`). -/
inductive JobType where
  | defaultJob
  | reusableWorkflowLocal
  | reusableWorkflowRemote
deriving DecidableEq, Repr

def errorInIfMessage (ifExpr err : String) : String :=
  "  ❌  Error in if-expression: \"if: " ++ ifExpr ++ "\" (" ++ err ++ ")"

/-- `RunContext.isEnabled`: evaluate the job's `if` expression against
the default-success status (`evalIf` is the external evaluator's
verdict); an evaluation failure is fatal, `false` disables the job, and
for a default-kind job an unresolvable platform image also disables it. -/
def isEnabled (evalIf : Except String Bool) (ifExpr : String)
    (jobType : JobType) (platformImage : String) : Except String Bool :=
  match evalIf with
  | .error err => .error (errorInIfMessage ifExpr err)
  | .ok false => .ok false
  | .ok true =>
    match jobType with
    | .defaultJob => if platformImage == "" then .ok false else .ok true
    | _ => .ok true

/-- `RunContext.Executor`: the closure returned by `Executor()` — consult
`isEnabled`, propagate its error, run the kind-dispatched inner executor
only on `true`, and return success untouched on `false`. -/
def runContextExecutor (evalIf : Except String Bool) (ifExpr : String)
    (jobType : JobType) (platformImage : String) (inner : Exec) : Exec := fun tr =>
  match isEnabled evalIf ifExpr jobType platformImage with
  | .error e => (some e, tr)
  | .ok true => inner tr
  | .ok false => (none, tr)

/-! ### Job container startup (`RunContext.startJobContainer`) -/

def serviceCredentialsErrorMessage (serviceId err : String) : String :=
  "failed to handle service " ++ serviceId ++ " credentials: " ++ err

/-- The per-service portion of the service loop in `startJobContainer`
that can fail: resolving each service's registry credentials, in
iteration order, stopping at the first failure.  (Interpolating each
service's env and cmd and building the container input are pure and
cannot fail.) -/
def resolveServiceCredentials (interp : String → String) :
    List (String × ContainerSpec) → Option String
  | [] => none
  | (serviceId, spec) :: rest =>
    match handleServiceCredentials interp spec.Credentials with
    | .error e => some (serviceCredentialsErrorMessage serviceId e)
    | .ok _ => resolveServiceCredentials interp rest

/-- `RunContext.pullServicesImages`: pull every service image in
parallel. -/
def pullServicesImages (services : List (String × ContainerSpec))
    (oracle : Event → Option String) : Exec :=
  parallelAll (services.map (fun s => primEvent (Event.servicePull s.1) oracle))

/-- `RunContext.startServiceContainers`: per service, pull → create →
start, all services in parallel. -/
def startServiceContainers (services : List (String × ContainerSpec))
    (oracle : Event → Option String) : Exec :=
  parallelAll (services.map (fun s =>
    seqExec (primEvent (Event.servicePull s.1) oracle)
      (seqExec (primEvent (Event.serviceCreate s.1) oracle)
        (primEvent (Event.serviceStart s.1) oracle))))

/-- `RunContext.createNetwork`. -/
def createNetwork (name : String) (oracle : Event → Option String) : Exec :=
  primEvent (Event.networkCreate name) oracle

/-- The inputs of `startJobContainer` that its control flow consults. -/
structure StartJobConfig where
  secrets : List (String × String)
  container : Option ContainerSpec
  services : List (String × ContainerSpec)
  needCreateNetwork : Bool
  containerNetworkMode : String
  jobContainerName : String

/-- `RunContext.startJobContainer`: resolve the job's registry
credentials, walk the service loop (whose only fallible part is service
credential resolution), then dispatch the startup pipeline: service image
pulls, job image pull, network creation when configured, service
containers, job container create/start, and the state-file copy.  (Bind,
mount and env computation is pure; `container.NewContainer` always yields
a handle, so the nil-handle guard is unreachable.) -/
def startJobContainer (interp : String → String) (cfg : StartJobConfig)
    (oracle : Event → Option String) : Exec := fun tr =>
  match handleCredentials cfg.secrets interp cfg.container with
  | .error e => (some ("failed to handle credentials: " ++ e), tr)
  | .ok _ =>
    let networkName :=
      if cfg.needCreateNetwork then cfg.jobContainerName ++ "-network"
      else cfg.containerNetworkMode
    match resolveServiceCredentials interp cfg.services with
    | some e => (some e, tr)
    | none =>
      (seqExec (pullServicesImages cfg.services oracle)
        (seqExec (primEvent Event.jobImagePull oracle)
          (seqExec (ifBoolExec (createNetwork networkName oracle) cfg.needCreateNetwork)
            (seqExec (startServiceContainers cfg.services oracle)
              (seqExec (primEvent (Event.jobContainerCreate cfg.jobContainerName) oracle)
                (seqExec (primEvent Event.jobContainerStart oracle)
                  (primEvent Event.copyContent oracle))))))) tr

/-! ### Trace predicates -/

/-- Is the event a source fetch? -/
def isFetch : Event → Bool
  | Event.fetch _ _ _ => true
  | _ => false

/-- Number of source fetches dispatched in a trace. -/
def fetchCount (tr : List Event) : Nat := (tr.filter isFetch).length

/-- Walk a trace keeping the exclusivity-lock depth; every fetch must
occur at positive depth. -/
def lockedFrom : Nat → List Event → Bool
  | _, [] => true
  | d, Event.lockAcquire :: rest => lockedFrom (d + 1) rest
  | d, Event.lockRelease :: rest => lockedFrom (d - 1) rest
  | d, Event.fetch _ _ _ :: rest => decide (0 < d) && lockedFrom d rest
  | d, _ :: rest => lockedFrom d rest

/-- Every fetch in the trace happens while the process-wide exclusivity
lock is held. -/
def allFetchesLocked (tr : List Event) : Bool := lockedFrom 0 tr

/-- No job-container-create event occurs before the first network-create
event of a trace. -/
def noCreateBeforeNetwork : List Event → Bool
  | [] => true
  | Event.networkCreate _ :: _ => true
  | Event.jobContainerCreate _ :: _ => false
  | _ :: rest => noCreateBeforeNetwork rest

/-- Is the event the job-container create? -/
def isJobCreate : Event → Bool
  | Event.jobContainerCreate _ => true
  | _ => false

/-- Is the event the network create? -/
def isNetCreate : Event → Bool
  | Event.networkCreate _ => true
  | _ => false

/-- Neutral events neither create the job container nor the network. -/
def neutralEvent (e : Event) : Bool := !isJobCreate e && !isNetCreate e

/-- The executor extends its input trace and appends only events
satisfying `P`. -/
def EmitsOnly (P : Event → Bool) (ex : Exec) : Prop :=
  ∀ tr, ∃ d, (ex tr).2 = tr ++ d ∧ ∀ e ∈ d, P e = true

/-! ### Concrete runs used by witnesses and counterexamples -/

/-- A concrete preparation run whose clone fails with the abbreviated-SHA
condition. -/
def shortRefCfg : PrepareConfig :=
  { alreadyPrepared := false
    uses := "org/tool@ab12cd3"
    localCheckout := false
    noSkipCheckout := false
    ReplaceGheActionWithGithubCom := []
    cloneURL := .ok "https://gitea.example.com/org/tool"
    actionCacheDir := "/cache/act"
    dirExists := false
    cloneOutcome := .shortRef "ab12cd34ef567890ab12cd34ef567890ab12cd34" "shortref"
    readActionResult := none }

/-- A concrete remote-action preparation that reaches its clone without
either short-circuit. -/
def prepareCfgUnlocked : PrepareConfig :=
  { alreadyPrepared := false
    uses := "actions/setup-go@v4"
    localCheckout := false
    noSkipCheckout := false
    ReplaceGheActionWithGithubCom := []
    cloneURL := .ok "https://github.com/actions/setup-go"
    actionCacheDir := "/cache/act"
    dirExists := false
    cloneOutcome := .ok
    readActionResult := none }

/-- A concrete caller configuration for a local reusable workflow with an
absent cache directory. -/
def localWorkflowCfg : ReusableConfig :=
  { Repository := "owner/repo"
    Sha := "9e107d9d372bb6826bd81d3542a419d6"
    GitHubInstance := "gitea.example.com"
    ActionCacheDir := "/root/.cache/act"
    dirExists := false
    cloneOutcome := .ok }

/-! ### Sanitizer characterization and parser evaluations -/

theorem applyReplacer_eq (c : Char) :
    applyReplacer replacerPairs c =
      if c ∈ pathHostileChars then '-' else c := by
  simp only [replacerPairs, applyReplacer, pathHostileChars, List.mem_cons,
    List.not_mem_nil, or_false]
  split_ifs <;> simp_all

theorem replacerRun_eq (l : List Char) :
    replacerRun l = l.map (fun c => if c ∈ pathHostileChars then '-' else c) := by
  induction l with
  | nil => rfl
  | cons c cs ih => simp [replacerRun, ih, applyReplacer_eq]

example : parseAction "not-a-valid-ref" = none := by decide
example : newRemoteAction "not-a-valid-ref" = none := by decide
example : parseAction "actions/checkout@v4" =
    some ⟨"", "actions", "checkout", "", "v4"⟩ := by decide
example : parseAction "org/repo/sub/dir@main" =
    some ⟨"", "org", "repo", "sub/dir", "main"⟩ := by decide
example : parseAction "org/repo" = none := by decide
example : parseAction "org/repo@" = none := by decide
example : newRemoteAction "https://gitea.com/org/repo@v1" =
    some ⟨"https://gitea.com", "org", "repo", "", "v1"⟩ := by decide
example : newRemoteReusableWorkflow "octocat/hello-world/.github/workflows/ci.yml@v1" =
    some ⟨"github", "", "octocat", "hello-world", "ci.yml", "v1"⟩ := by decide
example : newRemoteReusableWorkflow "octocat/hello-world/workflows/ci.yml@v1" = none := by
  decide

/-! ### Claim C1 -/

/-- Claim C1: for every job whose condition expression evaluates to
false, `Executor()` returns success and never invokes container
provisioning or any step execution (the trace is unchanged for an
arbitrary inner executor); if the condition expression itself fails to
evaluate, `Executor()` returns that evaluation error. -/
theorem executor_condition_false_or_error :
    (∀ (ifExpr : String) (jobType : JobType) (platformImage : String)
        (inner : Exec) (tr : List Event),
      runContextExecutor (.ok false) ifExpr jobType platformImage inner tr = (none, tr))
    ∧ (∀ (evalErr ifExpr : String) (jobType : JobType) (platformImage : String)
        (inner : Exec) (tr : List Event),
      runContextExecutor (.error evalErr) ifExpr jobType platformImage inner tr
        = (some (errorInIfMessage ifExpr evalErr), tr)) := by
  constructor <;> intros <;> rfl

/-! ### Claim C8 -/

/-- Claim C8: the cache-key sanitization is the pure function on the raw
reference string that replaces each occurrence of each character of the
fixed path-hostile set with a hyphen, and applying it twice to the same
input yields an identical path (purity makes determinism definitional). -/
theorem safeFilename_raw_deterministic (s : String) :
    safeFilename s = sanitizeSpec s ∧ safeFilename s = safeFilename s :=
  ⟨congrArg String.mk (replacerRun_eq s.data), rfl⟩

/-! ### Claim C10 -/

/-- Claim C10: a job container spec with no credentials mapping resolves
credentials to the DOCKER_USERNAME / DOCKER_PASSWORD secrets without
error, and an unset secret contributes the empty string. -/
theorem no_credentials_secret_fallback :
    (∀ (secrets : List (String × String)) (interp : String → String) (c : ContainerSpec),
      handleCredentials secrets interp (some { c with Credentials := none })
        = .ok (mapLookup secrets "DOCKER_USERNAME", mapLookup secrets "DOCKER_PASSWORD"))
    ∧ (∀ (secrets : List (String × String)) (key : String),
      (∀ p ∈ secrets, p.1 ≠ key) → mapLookup secrets key = "") := by
  constructor
  · intro secrets interp c
    rcases c
    rfl
  · intro secrets key h
    induction secrets with
    | nil => rfl
    | cons p rest ih =>
      obtain ⟨k, v⟩ := p
      have hk : k ≠ key := h (k, v) (List.mem_cons_self _ _)
      simp only [mapLookup, beq_iff_eq, if_neg hk]
      exact ih fun q hq => h q (List.mem_cons_of_mem _ hq)

/-- Witness for C10 at a concrete container spec and secret store. -/
theorem no_credentials_secret_fallback_witness :
    handleCredentials [("OTHER", "1")] (fun s => s)
        (some { Image := "node:16", Env := [], Ports := [], Volumes := [],
                Options := "", Cmd := [], Credentials := none })
      = .ok (mapLookup [("OTHER", "1")] "DOCKER_USERNAME",
             mapLookup [("OTHER", "1")] "DOCKER_PASSWORD")
    ∧ mapLookup [("OTHER", "1")] "DOCKER_USERNAME" = "" :=
  ⟨no_credentials_secret_fallback.1 [("OTHER", "1")] (fun s => s)
      { Image := "node:16", Env := [], Ports := [], Volumes := [],
        Options := "", Cmd := [], Credentials := none },
   no_credentials_secret_fallback.2 [("OTHER", "1")] "DOCKER_USERNAME"
      (by decide)⟩

/-! ### Claim C3 -/

/-- Claim C3: when the target cache directory already exists, no
clone/fetch is invoked, for reusable workflows (`cloneIfRequired` is a
no-op) and for remote actions (`prepareActionExecutor` dispatches no
fetch event), regardless of the requested ref. -/
theorem cache_hit_skips_fetch :
    (∀ (rw : RemoteReusableWorkflow) (targetDirectory : String)
        (outcome : CloneOutcome) (tr : List Event),
      cloneIfRequired true rw targetDirectory outcome tr = (none, tr))
    ∧ (∀ (cfg : PrepareConfig) (tr : List Event),
      fetchCount ((prepareActionExecutor { cfg with dirExists := true }) tr).2
        = fetchCount tr) := by
  constructor
  · intro rw d oc tr
    rfl
  · intro cfg tr
    rcases cfg
    simp only [prepareActionExecutor, gitCloneExecutor, readActionStep, seqExec, infoExec]
    split
    · rfl
    · split
      · rfl
      · split
        · rfl
        · split
          · rfl
          · simp [fetchCount, List.filter_append, isFetch]

/-! ### Claim C6 -/

/-- A failing service in the list makes the credential-resolution walk of
the service loop fail. -/
theorem resolveServiceCredentials_isSome_of_mem (interp : String → String)
    (services : List (String × ContainerSpec))
    (h : ∃ p ∈ services, ∃ e, handleServiceCredentials interp p.2.Credentials = .error e) :
    ∃ e, resolveServiceCredentials interp services = some e := by
  induction services with
  | nil => simp at h
  | cons q rest ih =>
    obtain ⟨p, hp, e, he⟩ := h
    obtain ⟨id, spec⟩ := q
    rcases List.mem_cons.mp hp with hpq | hmem
    · subst hpq
      simp only [resolveServiceCredentials, he]
      exact ⟨serviceCredentialsErrorMessage id e, rfl⟩
    · simp only [resolveServiceCredentials]
      cases hh : handleServiceCredentials interp spec.Credentials with
      | error e2 => exact ⟨serviceCredentialsErrorMessage id e2, rfl⟩
      | ok v => exact ih ⟨p, hmem, e, he⟩

/-- Claim C6: a service credential mapping without exactly two entries is
rejected; with two entries, exactly one non-empty interpolated value of
{username, password} is rejected while two non-empty values yield the
interpolated pair without error; and any failing service aborts
`startJobContainer` before a single driver event (in particular before
any container create) is dispatched. -/
theorem service_credentials_validation :
    (∀ (interp : String → String) (creds : List (String × String)),
      creds.length ≠ 2 →
      handleServiceCredentials interp (some creds)
        = .error "invalid property count for key \x27credentials:\x27")
    ∧ (∀ (interp : String → String) (creds : List (String × String)),
      creds.length = 2 →
      ((interp (mapLookup creds "username") = ""
          ∧ interp (mapLookup creds "password") ≠ "")
        ∨ (interp (mapLookup creds "username") ≠ ""
          ∧ interp (mapLookup creds "password") = "")) →
      ∃ e, handleServiceCredentials interp (some creds) = .error e)
    ∧ (∀ (interp : String → String) (creds : List (String × String)),
      creds.length = 2 →
      interp (mapLookup creds "username") ≠ "" →
      interp (mapLookup creds "password") ≠ "" →
      handleServiceCredentials interp (some creds)
        = .ok (interp (mapLookup creds "username"), interp (mapLookup creds "password")))
    ∧ (∀ (interp : String → String) (cfg : StartJobConfig)
        (oracle : Event → Option String) (tr : List Event),
      (∃ p ∈ cfg.services, ∃ e,
          handleServiceCredentials interp p.2.Credentials = .error e) →
      ∃ e, startJobContainer interp cfg oracle tr = (some e, tr)) := by
  refine ⟨?_, ?_, ?_, ?_⟩
  · intro interp creds hlen
    simp [handleServiceCredentials, hlen]
  · intro interp creds hlen hone
    rcases hone with ⟨hu, hp⟩ | ⟨hu, hp⟩
    · exact ⟨"failed to interpolate credentials.username",
        by simp [handleServiceCredentials, hlen, hu]⟩
    · exact ⟨"failed to interpolate credentials.password",
        by simp [handleServiceCredentials, hlen, hu, hp]⟩
  · intro interp creds hlen hu hp
    simp [handleServiceCredentials, hlen, hu, hp]
  · intro interp cfg oracle tr h
    obtain ⟨e, he⟩ := resolveServiceCredentials_isSome_of_mem interp cfg.services h
    simp only [startJobContainer]
    cases hc : handleCredentials cfg.secrets interp cfg.container with
    | error e2 => exact ⟨"failed to handle credentials: " ++ e2, rfl⟩
    | ok v => exact ⟨e, by simp [he]⟩

/-- Witness for C6 at a concrete partial-credential service spec. -/
theorem service_credentials_validation_witness :
    (∃ e, handleServiceCredentials (fun s => s)
        (some [("username", ""), ("password", "secret")]) = .error e)
    ∧ (∃ e, startJobContainer (fun s => s)
        { secrets := [], container := none,
          services := [("db",
            { Image := "postgres:15", Env := [], Ports := [], Volumes := [],
              Options := "", Cmd := [],
              Credentials := some [("username", ""), ("password", "secret")] })],
          needCreateNetwork := true, containerNetworkMode := "default",
          jobContainerName := "act-job" } (fun _ => none) [] = (some e, [])) := by
  constructor
  · exact service_credentials_validation.2.1 (fun s => s)
      [("username", ""), ("password", "secret")] (by decide)
      (Or.inl ⟨by decide, by decide⟩)
  · exact service_credentials_validation.2.2.2 (fun s => s) _ (fun _ => none) []
      ⟨("db",
        { Image := "postgres:15", Env := [], Ports := [], Volumes := [],
          Options := "", Cmd := [],
          Credentials := some [("username", ""), ("password", "secret")] }),
        List.mem_cons_self _ _,
        "failed to interpolate credentials.username", rfl⟩

/-! ### Claim C7 -/

/-- The GHE-replacement loop only rewrites the clone host, never the
ref. -/
theorem applyGheReplace_Ref (replaceList : List String) (ra : RemoteAction) :
    (applyGheReplace replaceList ra).Ref = ra.Ref := by
  simp only [applyGheReplace]
  split <;> rfl

/-- Claim C7: on a remote-action fetch failure, the abbreviated-SHA
condition is fatal with a message embedding the required full commit SHA,
the force-needed condition is downgraded to a logged warning after which
the action manifest is still read, and any other fetch error is returned
fatally as-is. -/
theorem clone_failure_handling (cfg : PrepareConfig) (ra : RemoteAction) (url : String)
    (hprep : cfg.alreadyPrepared = false)
    (hparse : newRemoteAction cfg.uses = some ra)
    (hskip : (ra.IsCheckout && cfg.localCheckout && !cfg.noSkipCheckout) = false)
    (hurl : cfg.cloneURL = .ok url)
    (hdir : cfg.dirExists = false) :
    (∀ commit m, cfg.cloneOutcome = .shortRef commit m →
      prepareActionExecutor cfg []
          = (some (shortRefMessage cfg.uses ra.Ref commit),
             [Event.fetch url ra.Ref (cfg.actionCacheDir ++ "/" ++ safeFilename cfg.uses)])
        ∧ ∃ a b, shortRefMessage cfg.uses ra.Ref commit = a ++ (commit ++ b))
    ∧ (∀ m, cfg.cloneOutcome = .forceNeeded m →
      prepareActionExecutor cfg []
        = (cfg.readActionResult,
           [Event.fetch url ra.Ref (cfg.actionCacheDir ++ "/" ++ safeFilename cfg.uses),
            Event.infoLog (nonTerminatingCloneMessage m),
            Event.readActionManifest]))
    ∧ (∀ m, cfg.cloneOutcome = .failed m →
      prepareActionExecutor cfg []
        = (some m,
           [Event.fetch url ra.Ref (cfg.actionCacheDir ++ "/" ++ safeFilename cfg.uses)])) := by
  refine ⟨?_, ?_, ?_⟩
  · intro commit m hout
    constructor
    · simp [prepareActionExecutor, hprep, hparse, hskip, hurl, hdir, hout,
        gitCloneExecutor, applyGheReplace_Ref]
    · exact ⟨"Unable to resolve action \x60" ++ cfg.uses ++ "\x60, the provided ref \x60"
          ++ ra.Ref
          ++ "\x60 is the shortened version of a commit SHA, which is not supported. Please use the full commit SHA \x60",
        "\x60 instead", rfl⟩
  · intro m hout
    simp [prepareActionExecutor, hprep, hparse, hskip, hurl, hdir, hout,
      gitCloneExecutor, seqExec, infoExec, readActionStep, applyGheReplace_Ref]
  · intro m hout
    simp [prepareActionExecutor, hprep, hparse, hskip, hurl, hdir, hout,
      gitCloneExecutor, applyGheReplace_Ref]

/-- Witness for C7: the abbreviated-SHA branch at a concrete input. -/
theorem clone_failure_handling_witness :
    prepareActionExecutor shortRefCfg []
        = (some (shortRefMessage "org/tool@ab12cd3" "ab12cd3"
            "ab12cd34ef567890ab12cd34ef567890ab12cd34"),
           [Event.fetch "https://gitea.example.com/org/tool" "ab12cd3"
              ("/cache/act" ++ "/" ++ safeFilename "org/tool@ab12cd3")])
      ∧ ∃ a b, shortRefMessage "org/tool@ab12cd3" "ab12cd3"
          "ab12cd34ef567890ab12cd34ef567890ab12cd34"
            = a ++ ("ab12cd34ef567890ab12cd34ef567890ab12cd34" ++ b) :=
  (clone_failure_handling shortRefCfg ⟨"", "org", "tool", "", "ab12cd3"⟩
      "https://gitea.example.com/org/tool" rfl (by decide) (by decide) rfl rfl).1
    "ab12cd34ef567890ab12cd34ef567890ab12cd34" "shortref" rfl

/-! ### Claim C2 -/

/-- A reference without an `@` cannot match the remote-action grammar:
`parseAction` rejects it. -/
theorem parseAction_eq_none_of_no_at (l : List Char) (h : ∀ c ∈ l, c ≠ '@') :
    parseAction ⟨l⟩ = none := by
  simp only [parseAction]
  split
  · rfl
  · next o x1 rest1 heq1 hne =>
    have hrest1 : ∀ c ∈ rest1, c ∈ l := by
      intro c hc
      have h1 : c ∈ '/' :: rest1 := List.mem_cons_of_mem '/' hc
      rw [← heq1] at h1
      exact List.drop_subset _ l h1
    split
    · rfl
    · split
      · rfl
      · next x rest3 heq3 =>
        have hrest3 : ∀ c ∈ rest3, c ∈ l := by
          intro c hc
          have h1 : c ∈ '/' :: rest3 := List.mem_cons_of_mem '/' hc
          rw [← heq3] at h1
          exact hrest1 c (List.drop_subset _ rest1 h1)
        split
        · next refChars heq4 =>
          have h1 : '@' ∈ '@' :: refChars := List.mem_cons_self _ _
          rw [← heq4] at h1
          exact absurd rfl (h '@' (hrest3 '@' (List.drop_subset _ rest3 h1)))
        · rfl
      · next x refChars heq3 =>
        have h1 : '@' ∈ '@' :: refChars := List.mem_cons_self _ _
        rw [← heq3] at h1
        exact absurd rfl (h '@' (hrest1 '@' (List.drop_subset _ rest1 h1)))
      · rfl
  · rfl

/-- The explicit-host arm inherits the same rejection. -/
theorem parseActionWithHost_eq_none_of_no_at (schema : String) (rest : String)
    (h : ∀ c ∈ rest.data, c ≠ '@') : parseActionWithHost schema rest = none := by
  simp only [parseActionWithHost]
  split
  · rfl
  · rw [parseAction_eq_none_of_no_at]
    intro c hc
    exact h c (List.drop_subset _ _ hc)

/-- Any `uses` string that contains no `@` (hence no `@ref` suffix) is
rejected by `newRemoteAction`. -/
theorem newRemoteAction_eq_none_of_no_at (s : String) (h : ∀ c ∈ s.data, c ≠ '@') :
    newRemoteAction s = none := by
  simp only [newRemoteAction]
  split
  · exact parseActionWithHost_eq_none_of_no_at _ _
      (fun c hc => h c (List.drop_subset _ _ hc))
  · split
    · exact parseActionWithHost_eq_none_of_no_at _ _
        (fun c hc => h c (List.drop_subset _ _ hc))
    · exact parseAction_eq_none_of_no_at s.data h

/-- Claim C2: a step `uses` string that does not match the remote-action
grammar makes `prepareActionExecutor` fail with the malformed-reference
message while leaving the trace untouched (no fetch of any kind is
dispatched); in particular every string without an `@` — such as
`"not-a-valid-ref"` — fails to match. -/
theorem malformed_reference_no_fetch :
    (∀ (cfg : PrepareConfig) (tr : List Event),
      newRemoteAction cfg.uses = none →
      prepareActionExecutor { cfg with alreadyPrepared := false } tr
        = (some (malformedActionMessage cfg.uses), tr))
    ∧ (∀ s : String, (∀ c ∈ s.data, c ≠ '@') → newRemoteAction s = none)
    ∧ newRemoteAction "not-a-valid-ref" = none := by
  refine ⟨?_, newRemoteAction_eq_none_of_no_at, by decide⟩
  intro cfg tr hparse
  rcases cfg
  simp_all [prepareActionExecutor]

/-- Witness for C2 at the spec's own example string. -/
theorem malformed_reference_no_fetch_witness :
    prepareActionExecutor
        { alreadyPrepared := false
          uses := "not-a-valid-ref"
          localCheckout := false
          noSkipCheckout := false
          ReplaceGheActionWithGithubCom := []
          cloneURL := .ok "https://example.com/x/y"
          actionCacheDir := "/cache/act"
          dirExists := false
          cloneOutcome := .ok
          readActionResult := none } []
      = (some (malformedActionMessage "not-a-valid-ref"), []) :=
  malformed_reference_no_fetch.1
    { alreadyPrepared := false
      uses := "not-a-valid-ref"
      localCheckout := false
      noSkipCheckout := false
      ReplaceGheActionWithGithubCom := []
      cloneURL := .ok "https://example.com/x/y"
      actionCacheDir := "/cache/act"
      dirExists := false
      cloneOutcome := .ok
      readActionResult := none } []
    (malformed_reference_no_fetch.2.2)

/-! ### Claim C4 -/

/-- Counterexample for C4 as stated: the remote-action fetch dispatched
by `prepareActionExecutor` is performed with the process-wide exclusivity
lock never held — the run contains a fetch and fails the lock
discipline. -/
theorem fetch_without_lock_counterexample :
    fetchCount ((prepareActionExecutor prepareCfgUnlocked) []).2 = 1
      ∧ allFetchesLocked ((prepareActionExecutor prepareCfgUnlocked) []).2 = false := by
  decide

/-- Claim C4, amended: the reusable-workflow executors (local and remote)
perform their fetch under the process-wide exclusivity lock, but the
remote-action fetch of `prepareActionExecutor` is dispatched without
acquiring that lock. -/
theorem fetch_lock_discipline :
    (∀ (jobUses : String) (cfg : ReusableConfig),
      allFetchesLocked
        ((newLocalReusableWorkflowExecutor jobUses cfg noopExec) []).2 = true)
    ∧ (∀ (jobUses : String) (cfg : ReusableConfig),
      allFetchesLocked
        ((newRemoteReusableWorkflowExecutor jobUses cfg noopExec) []).2 = true)
    ∧ (∀ (cfg : PrepareConfig) (ra : RemoteAction) (url : String),
      cfg.alreadyPrepared = false →
      newRemoteAction cfg.uses = some ra →
      (ra.IsCheckout && cfg.localCheckout && !cfg.noSkipCheckout) = false →
      cfg.cloneURL = .ok url →
      cfg.dirExists = false →
      fetchCount ((prepareActionExecutor cfg) []).2 = 1
        ∧ allFetchesLocked ((prepareActionExecutor cfg) []).2 = false) := by
  refine ⟨?_, ?_, ?_⟩
  · intro jobUses cfg
    obtain ⟨rep, sha, inst, cache, de, co⟩ := cfg
    simp only [newLocalReusableWorkflowExecutor]
    cases hp : newRemoteReusableWorkflow (rep ++ "/" ++ trimPrefixStr jobUses "./" ++ "@" ++ sha) with
    | none => rfl
    | some rw0 => cases de <;> cases co <;> rfl
  · intro jobUses cfg
    obtain ⟨rep, sha, inst, cache, de, co⟩ := cfg
    simp only [newRemoteReusableWorkflowExecutor]
    cases hp : newRemoteReusableWorkflow jobUses with
    | none => rfl
    | some rw0 => cases de <;> cases co <;> rfl
  · intro cfg ra url hprep hparse hskip hurl hdir
    obtain ⟨ap, uses, lc, nsc, rep, cu, acd, de, co, rr⟩ := cfg
    simp only at hprep hparse hskip hurl hdir
    subst hprep hurl hdir
    simp only [prepareActionExecutor, hparse, hskip, gitCloneExecutor]
    cases co <;>
      simp [fetchCount, isFetch, seqExec, infoExec, readActionStep,
        allFetchesLocked, lockedFrom, List.filter_append]

/-- Witness for C4's amended statement at concrete inputs. -/
theorem fetch_lock_discipline_witness :
    allFetchesLocked ((newLocalReusableWorkflowExecutor "./.gitea/workflows/ci.yml"
        ⟨"o/r", "s", "gitea.com", "/c", false, .ok⟩ noopExec) []).2 = true
    ∧ (fetchCount ((prepareActionExecutor prepareCfgUnlocked) []).2 = 1
        ∧ allFetchesLocked ((prepareActionExecutor prepareCfgUnlocked) []).2 = false) :=
  ⟨fetch_lock_discipline.1 "./.gitea/workflows/ci.yml"
      ⟨"o/r", "s", "gitea.com", "/c", false, .ok⟩,
   fetch_lock_discipline.2.2 prepareCfgUnlocked ⟨"", "actions", "setup-go", "", "v4"⟩
      "https://github.com/actions/setup-go" rfl (by decide) (by decide) rfl rfl⟩

/-! ### Claim C5 -/

/-- Counterexample for C5 as stated: resolving the job uses
`./.gitea/workflows/build.yml` as a local reusable workflow dispatches a
fetch (of the caller's own repository at its SHA into the action cache)
when the cache directory is absent — a fetch IS performed. -/
theorem local_workflow_performs_fetch_counterexample :
    fetchCount ((newLocalReusableWorkflowExecutor "./.gitea/workflows/build.yml"
        localWorkflowCfg noopExec) []).2 = 1 := by
  decide

/-- `strings.TrimPrefix` strips exactly the leading `./`. -/
theorem trimPrefixStr_dotSlash (rest : String) :
    trimPrefixStr ("./" ++ rest) "./" = rest := by
  have hdata : ("./" ++ rest).data = '.' :: '/' :: rest.data := by
    rw [String.data_append]
    rfl
  simp [trimPrefixStr, hdata, List.isPrefixOf]

/-- Claim C5, amended: a job `uses` beginning with `./` has the prefix
stripped and is recombined with the caller's own repository and SHA into
`{repository}/{path}@{sha}`; when that reference parses, the workflow is
resolved through the remote machinery — cloned under the lock into the
cache directory keyed by the sanitized combined reference when that
directory is absent (a fetch is dispatched), and with the fetch skipped
only when the cache directory already exists. -/
theorem local_reusable_workflow_resolution (rest : String) (cfg : ReusableConfig)
    (rw : RemoteReusableWorkflow) (k : Exec)
    (hparse : newRemoteReusableWorkflow
      (cfg.Repository ++ "/" ++ rest ++ "@" ++ cfg.Sha) = some rw) :
    (cfg.dirExists = false → cfg.cloneOutcome = .ok →
      newLocalReusableWorkflowExecutor ("./" ++ rest) cfg k []
        = k [Event.lockAcquire,
             Event.fetch (cfg.GitHubInstance ++ "/" ++ rw.Org ++ "/" ++ rw.Repo) rw.Ref
               (cfg.ActionCacheDir ++ "/"
                 ++ safeFilename (cfg.Repository ++ "/" ++ rest ++ "@" ++ cfg.Sha)),
             Event.lockRelease])
    ∧ (cfg.dirExists = true →
      newLocalReusableWorkflowExecutor ("./" ++ rest) cfg k []
        = k [Event.lockAcquire, Event.lockRelease]) := by
  obtain ⟨rep, sha, inst, cache, de, co⟩ := cfg
  simp only at hparse
  simp only [newLocalReusableWorkflowExecutor, trimPrefixStr_dotSlash, hparse]
  constructor
  · intro hde hco
    subst hde hco
    rfl
  · intro hde
    subst hde
    rfl

/-- Witness for C5's amended statement: with the cache directory already
present, only the lock events are dispatched (no fetch). -/
theorem local_reusable_workflow_resolution_witness :
    newLocalReusableWorkflowExecutor "./.gitea/workflows/deploy.yml"
        ⟨"owner/repo", "abc", "git.example.com", "/c", true, .ok⟩ noopExec []
      = noopExec [Event.lockAcquire, Event.lockRelease] :=
  (local_reusable_workflow_resolution ".gitea/workflows/deploy.yml"
      ⟨"owner/repo", "abc", "git.example.com", "/c", true, .ok⟩
      ⟨"gitea", "", "owner", "repo", "deploy.yml", "abc"⟩ noopExec (by decide)).2 rfl

/-! ### Claim C9 -/

theorem noCreateBeforeNetwork_append (d : List Event)
    (hd : ∀ e ∈ d, neutralEvent e = true) (rest : List Event) :
    noCreateBeforeNetwork (d ++ rest) = noCreateBeforeNetwork rest := by
  induction d with
  | nil => rfl
  | cons e d ih =>
    have he := hd e (List.mem_cons_self _ _)
    have hd2 : ∀ x ∈ d, neutralEvent x = true :=
      fun x hx => hd x (List.mem_cons_of_mem _ hx)
    cases e <;>
      simp_all [neutralEvent, isJobCreate, isNetCreate, noCreateBeforeNetwork]

theorem emitsOnly_primEvent {P : Event → Bool} (ev : Event)
    (oracle : Event → Option String) (hev : P ev = true) :
    EmitsOnly P (primEvent ev oracle) := by
  intro tr
  exact ⟨[ev], rfl, by simpa using hev⟩

theorem emitsOnly_seqExec {P : Event → Bool} {a b : Exec}
    (ha : EmitsOnly P a) (hb : EmitsOnly P b) : EmitsOnly P (seqExec a b) := by
  intro tr
  obtain ⟨d1, h1, hd1⟩ := ha tr
  cases hres : a tr with
  | mk r tr1 =>
    rw [hres] at h1
    dsimp only at h1
    cases r with
    | none =>
      obtain ⟨d2, h2, hd2⟩ := hb tr1
      refine ⟨d1 ++ d2, ?_, ?_⟩
      · simp only [seqExec, hres]
        rw [h2, h1, List.append_assoc]

      · intro e he
        rcases List.mem_append.mp he with h | h
        · exact hd1 e h
        · exact hd2 e h
    | some err =>
      refine ⟨d1, ?_, hd1⟩
      simp only [seqExec, hres]
      exact h1

theorem emitsOnly_parallelAll {P : Event → Bool} {es : List Exec}
    (h : ∀ ex ∈ es, EmitsOnly P ex) : EmitsOnly P (parallelAll es) := by
  induction es with
  | nil => intro tr; exact ⟨[], by simp [parallelAll], by simp⟩
  | cons e es ih =>
    intro tr
    obtain ⟨d1, h1, hd1⟩ := h e (List.mem_cons_self _ _) tr
    obtain ⟨d2, h2, hd2⟩ := ih (fun x hx => h x (List.mem_cons_of_mem _ hx)) ((e tr).2)
    refine ⟨d1 ++ d2, ?_, ?_⟩
    · show (parallelAll es (e tr).2).2 = tr ++ (d1 ++ d2)
      rw [h2, h1, List.append_assoc]
    · intro x hx
      rcases List.mem_append.mp hx with hx | hx
      · exact hd1 x hx
      · exact hd2 x hx

/-- Claim C9: with `NeedCreateNetwork = true`, no job-container-create
operation is ever dispatched before the network-create operation in any
execution of the `startJobContainer` pipeline, for every driver outcome,
service list and configuration. -/
theorem network_precedes_job_create (interp : String → String)
    (secrets : List (String × String)) (container : Option ContainerSpec)
    (services : List (String × ContainerSpec)) (cnm jcn : String)
    (oracle : Event → Option String) :
    noCreateBeforeNetwork
      ((startJobContainer interp
          { secrets := secrets, container := container, services := services,
            needCreateNetwork := true, containerNetworkMode := cnm,
            jobContainerName := jcn } oracle) []).2 = true := by
  have hpull : EmitsOnly neutralEvent (pullServicesImages services oracle) :=
    emitsOnly_parallelAll (fun ex hex => by
      obtain ⟨s, hs, rfl⟩ := List.mem_map.mp hex
      exact emitsOnly_primEvent _ _ rfl)
  have htail : EmitsOnly (fun _ => true)
      (seqExec (startServiceContainers services oracle)
        (seqExec (primEvent (Event.jobContainerCreate jcn) oracle)
          (seqExec (primEvent Event.jobContainerStart oracle)
            (primEvent Event.copyContent oracle)))) := by
    refine emitsOnly_seqExec ?_
      (emitsOnly_seqExec (emitsOnly_primEvent _ _ rfl)
        (emitsOnly_seqExec (emitsOnly_primEvent _ _ rfl)
          (emitsOnly_primEvent _ _ rfl)))
    exact emitsOnly_parallelAll (fun ex hex => by
      obtain ⟨s, hs, rfl⟩ := List.mem_map.mp hex
      exact emitsOnly_seqExec (emitsOnly_primEvent _ _ rfl)
        (emitsOnly_seqExec (emitsOnly_primEvent _ _ rfl)
          (emitsOnly_primEvent _ _ rfl)))
  simp only [startJobContainer]
  cases hcred : handleCredentials secrets interp container with
  | error e => rfl
  | ok v =>
    cases hsvc : resolveServiceCredentials interp services with
    | some e => rfl
    | none =>
      obtain ⟨d1, h1, hd1⟩ := hpull []
      cases hres1 : pullServicesImages services oracle [] with
      | mk r1 t1 =>
        rw [hres1] at h1
        simp only [List.nil_append] at h1
        cases r1 with
        | some e1 =>
          simp only [seqExec, hres1, h1]
          have h2 := noCreateBeforeNetwork_append d1 hd1 []
          simpa using h2
        | none =>
          simp only [seqExec, hres1, primEvent, ifBoolExec, if_true, createNetwork]
          cases horacle2 : oracle Event.jobImagePull with
          | some e2 =>
            simp only [h1]
            rw [noCreateBeforeNetwork_append d1 hd1]
            rfl
          | none =>
            cases horacle3 : oracle (Event.networkCreate (jcn ++ "-network")) with
            | some e3 =>
              simp only [h1, List.append_assoc]
              rw [noCreateBeforeNetwork_append d1 hd1]
              rfl
            | none =>
              obtain ⟨d3, h3, _⟩ := htail ((t1 ++ [Event.jobImagePull])
                ++ [Event.networkCreate (jcn ++ "-network")])
              simp only [seqExec, primEvent] at h3
              dsimp only
              rw [h3, h1, List.append_assoc, List.append_assoc]
              rw [noCreateBeforeNetwork_append d1 hd1]
              rfl

end ActRunner
